import Mathlib

/-!
Verification development for the ohmysportsfeedspy client library
(versioned API client `v1_0.py` plus the storage abstraction `stores.py`).

The Python sources are shallowly embedded: dictionaries become association
lists (Python 3 dictionaries preserve insertion order, and the sources only
build them with unique keys), Python runtime values become the `PyVal`
inductive, raised exceptions become the `PyErr` error type threaded through
`Except`, and the filesystem used by `FileStore` becomes an association list
from paths to file contents.  The standard-library collaborators that the
sources delegate to (`json.dump`/`json.load`, the `csv` writer/reader,
`base64.b64encode`, `str.splitlines`) are embedded as executable Lean
functions faithful to their documented behaviour on the data this library
feeds them.
-/

/-- Python exceptions that the embedded code can raise. -/
inductive PyErr : Type where
  /-- `AttributeError`: access to an instance attribute that was never
  assigned (a bare class-level annotation creates no attribute). -/
  | attributeError (name : String)
  /-- `KeyError` from a dictionary subscript. -/
  | keyError (key : String)
  /-- `ValueError` with its message. -/
  | valueError (msg : String)
  /-- `AssertionError` with its message. -/
  | assertionError (msg : String)
  /-- `UnboundLocalError`: a local variable read before any assignment. -/
  | unboundLocalError (name : String)
  /-- The bare `Warning` raised for a non-200/304 HTTP status. -/
  | warning (status : Nat)
  /-- `json.JSONDecodeError` from `json.loads` / `json.load`. -/
  | jsonDecodeError
  /-- `TypeError` (e.g. `json.dump` on an unserializable value). -/
  | typeError
deriving DecidableEq, Repr

/-- A Python dictionary with string keys and string values, as an ordered
association list with unique keys (insertion order, as in Python 3). -/
abbrev Params := List (String × String)

/-- Dictionary lookup (`d[k]` / `d.get(k)`): first binding for the key. -/
def pLookup : Params → String → Option String
  | [], _ => none
  | (k, v) :: t, key => if k = key then some v else pLookup t key

/-- Python `k in d`. -/
def hasKey (p : Params) (k : String) : Bool :=
  (pLookup p k).isSome

/-- Python `d[k] = v`: overwrite in place if the key exists, else append. -/
def dictSet : Params → String → String → Params
  | [], k, v => [(k, v)]
  | (k0, v0) :: t, k, v =>
      if k0 = k then (k0, v) :: t else (k0, v0) :: dictSet t k v

/-- Membership test used by `API_v1_0.__verify_feed` (a linear scan with
early exit, equivalent to list membership). -/
def listElem : List String → String → Bool
  | [], _ => false
  | x :: t, s => if x = s then true else listElem t s

mutual
/-- A Python runtime value, covering everything the embedded code moves
around: JSON trees, text, byte strings, lists and dictionaries. -/
inductive PyVal : Type where
  | vnone : PyVal
  | vbool : Bool → PyVal
  | vint : Int → PyVal
  | vstr : String → PyVal
  /-- A `bytes` object, carried as its UTF-8 decoded text. -/
  | vbytes : String → PyVal
  | vlist : PyList → PyVal
  | vdict : PyDict → PyVal
/-- A Python list of `PyVal`s. -/
inductive PyList : Type where
  | lnil : PyList
  | lcons : PyVal → PyList → PyList
/-- A Python dictionary with string keys and `PyVal` values. -/
inductive PyDict : Type where
  | dnil : PyDict
  | dcons : String → PyVal → PyDict → PyDict
end

mutual
/-- Decidable equality for `PyVal`. -/
def pyValDecEq : (a b : PyVal) → Decidable (a = b)
  | .vnone, .vnone => isTrue rfl
  | .vbool a, .vbool b =>
      match decEq a b with
      | isTrue h => isTrue (by rw [h])
      | isFalse h => isFalse (by intro hc; cases hc; exact h rfl)
  | .vint a, .vint b =>
      match decEq a b with
      | isTrue h => isTrue (by rw [h])
      | isFalse h => isFalse (by intro hc; cases hc; exact h rfl)
  | .vstr a, .vstr b =>
      match decEq a b with
      | isTrue h => isTrue (by rw [h])
      | isFalse h => isFalse (by intro hc; cases hc; exact h rfl)
  | .vbytes a, .vbytes b =>
      match decEq a b with
      | isTrue h => isTrue (by rw [h])
      | isFalse h => isFalse (by intro hc; cases hc; exact h rfl)
  | .vlist a, .vlist b =>
      match pyListDecEq a b with
      | isTrue h => isTrue (by rw [h])
      | isFalse h => isFalse (by intro hc; cases hc; exact h rfl)
  | .vdict a, .vdict b =>
      match pyDictDecEq a b with
      | isTrue h => isTrue (by rw [h])
      | isFalse h => isFalse (by intro hc; cases hc; exact h rfl)
  | .vnone, .vbool _ => isFalse (by intro h; cases h)
  | .vnone, .vint _ => isFalse (by intro h; cases h)
  | .vnone, .vstr _ => isFalse (by intro h; cases h)
  | .vnone, .vbytes _ => isFalse (by intro h; cases h)
  | .vnone, .vlist _ => isFalse (by intro h; cases h)
  | .vnone, .vdict _ => isFalse (by intro h; cases h)
  | .vbool _, .vnone => isFalse (by intro h; cases h)
  | .vbool _, .vint _ => isFalse (by intro h; cases h)
  | .vbool _, .vstr _ => isFalse (by intro h; cases h)
  | .vbool _, .vbytes _ => isFalse (by intro h; cases h)
  | .vbool _, .vlist _ => isFalse (by intro h; cases h)
  | .vbool _, .vdict _ => isFalse (by intro h; cases h)
  | .vint _, .vnone => isFalse (by intro h; cases h)
  | .vint _, .vbool _ => isFalse (by intro h; cases h)
  | .vint _, .vstr _ => isFalse (by intro h; cases h)
  | .vint _, .vbytes _ => isFalse (by intro h; cases h)
  | .vint _, .vlist _ => isFalse (by intro h; cases h)
  | .vint _, .vdict _ => isFalse (by intro h; cases h)
  | .vstr _, .vnone => isFalse (by intro h; cases h)
  | .vstr _, .vbool _ => isFalse (by intro h; cases h)
  | .vstr _, .vint _ => isFalse (by intro h; cases h)
  | .vstr _, .vbytes _ => isFalse (by intro h; cases h)
  | .vstr _, .vlist _ => isFalse (by intro h; cases h)
  | .vstr _, .vdict _ => isFalse (by intro h; cases h)
  | .vbytes _, .vnone => isFalse (by intro h; cases h)
  | .vbytes _, .vbool _ => isFalse (by intro h; cases h)
  | .vbytes _, .vint _ => isFalse (by intro h; cases h)
  | .vbytes _, .vstr _ => isFalse (by intro h; cases h)
  | .vbytes _, .vlist _ => isFalse (by intro h; cases h)
  | .vbytes _, .vdict _ => isFalse (by intro h; cases h)
  | .vlist _, .vnone => isFalse (by intro h; cases h)
  | .vlist _, .vbool _ => isFalse (by intro h; cases h)
  | .vlist _, .vint _ => isFalse (by intro h; cases h)
  | .vlist _, .vstr _ => isFalse (by intro h; cases h)
  | .vlist _, .vbytes _ => isFalse (by intro h; cases h)
  | .vlist _, .vdict _ => isFalse (by intro h; cases h)
  | .vdict _, .vnone => isFalse (by intro h; cases h)
  | .vdict _, .vbool _ => isFalse (by intro h; cases h)
  | .vdict _, .vint _ => isFalse (by intro h; cases h)
  | .vdict _, .vstr _ => isFalse (by intro h; cases h)
  | .vdict _, .vbytes _ => isFalse (by intro h; cases h)
  | .vdict _, .vlist _ => isFalse (by intro h; cases h)
/-- Decidable equality for `PyList`. -/
def pyListDecEq : (a b : PyList) → Decidable (a = b)
  | .lnil, .lnil => isTrue rfl
  | .lnil, .lcons _ _ => isFalse (by intro h; cases h)
  | .lcons _ _, .lnil => isFalse (by intro h; cases h)
  | .lcons x xs, .lcons y ys =>
      match pyValDecEq x y, pyListDecEq xs ys with
      | isTrue h1, isTrue h2 => isTrue (by rw [h1, h2])
      | isFalse h1, _ => isFalse (by intro hc; cases hc; exact h1 rfl)
      | _, isFalse h2 => isFalse (by intro hc; cases hc; exact h2 rfl)
/-- Decidable equality for `PyDict`. -/
def pyDictDecEq : (a b : PyDict) → Decidable (a = b)
  | .dnil, .dnil => isTrue rfl
  | .dnil, .dcons _ _ _ => isFalse (by intro h; cases h)
  | .dcons _ _ _, .dnil => isFalse (by intro h; cases h)
  | .dcons k v t, .dcons k2 v2 t2 =>
      match decEq k k2, pyValDecEq v v2, pyDictDecEq t t2 with
      | isTrue h0, isTrue h1, isTrue h2 => isTrue (by rw [h0, h1, h2])
      | isFalse h0, _, _ => isFalse (by intro hc; cases hc; exact h0 rfl)
      | _, isFalse h1, _ => isFalse (by intro hc; cases hc; exact h1 rfl)
      | _, _, isFalse h2 => isFalse (by intro hc; cases hc; exact h2 rfl)
end

instance : DecidableEq PyVal := pyValDecEq
instance : DecidableEq PyList := pyListDecEq
instance : DecidableEq PyDict := pyDictDecEq

/-- Convert a Lean list of values into a `PyList`. -/
def toPyList : List PyVal → PyList
  | [] => .lnil
  | x :: t => .lcons x (toPyList t)

/-- The `\x7b` character, written by code point to keep string and
character literals brace-free. -/
def lbraceChar : Char := Char.ofNat 123

/-- The `\x7d` character. -/
def rbraceChar : Char := Char.ofNat 125

/-! ### Decimal integers: Python `repr` of `int` and its parse -/

/-- ASCII decimal digit test (as used by the JSON number grammar). -/
def isDigitC (c : Char) : Bool :=
  48 ≤ c.toNat && c.toNat ≤ 57

/-- Numeric value of an ASCII digit. -/
def digitVal (c : Char) : Nat := c.toNat - 48

/-- Fuel-driven digit accumulator (fuel keeps the recursion structural so
the kernel can evaluate it). -/
def printNatAux : Nat → Nat → List Char
  | 0, _ => []
  | f + 1, n =>
    if n < 10 then [Nat.digitChar n]
    else printNatAux f (n / 10) ++ [Nat.digitChar (n % 10)]

/-- The decimal digits of a natural number, most significant first
(Python `repr` of a non-negative `int`). -/
def printNatChars (n : Nat) : List Char := printNatAux (n + 1) n

/-- Python `repr` of an `int` (also the form `json.dumps` emits). -/
def printIntChars (n : Int) : List Char :=
  if n < 0 then '-' :: printNatChars n.natAbs else printNatChars n.toNat

/-- Fold a digit list into the natural number it denotes. -/
def digitsToNat (ds : List Char) : Nat :=
  ds.foldl (fun a c => a * 10 + digitVal c) 0

/-- Parse a maximal non-empty digit prefix of the input. -/
def parseNatFrom (cs : List Char) : Option (Nat × List Char) :=
  let ds := cs.takeWhile isDigitC
  if ds.isEmpty then none
  else some (digitsToNat ds, cs.dropWhile isDigitC)

/-- True when the input starts with a decimal digit. -/
def digitStart : List Char → Bool
  | [] => false
  | c :: _ => isDigitC c

theorem digitChar_lt_10 (d : Nat) (h : d < 10) :
    isDigitC (Nat.digitChar d) = true ∧ digitVal (Nat.digitChar d) = d := by
  interval_cases d <;> exact ⟨rfl, rfl⟩

theorem printNatAux_digits (f : Nat) :
    ∀ n, n < f →
      printNatAux f n ≠ [] ∧ ∀ c ∈ printNatAux f n, isDigitC c = true := by
  induction f with
  | zero => omega
  | succ f ih =>
    intro n hn
    simp only [printNatAux]
    split
    · next h =>
      refine ⟨by simp, ?_⟩
      intro c hc
      simp only [List.mem_singleton] at hc
      subst hc
      exact (digitChar_lt_10 n h).1
    · next h =>
      have hd := ih (n / 10) (by omega)
      refine ⟨by simp, ?_⟩
      intro c hc
      rw [List.mem_append] at hc
      rcases hc with hc | hc
      · exact hd.2 c hc
      · simp only [List.mem_singleton] at hc
        subst hc
        exact (digitChar_lt_10 (n % 10) (Nat.mod_lt _ (by omega))).1

theorem printNatChars_digits (n : Nat) :
    printNatChars n ≠ [] ∧ ∀ c ∈ printNatChars n, isDigitC c = true :=
  printNatAux_digits (n + 1) n (by omega)

/-- The power of ten matching the number of digits `printNatAux` emits. -/
def tenPowAux : Nat → Nat → Nat
  | 0, _ => 1
  | f + 1, n => if n < 10 then 10 else tenPowAux f (n / 10) * 10

theorem digitsToNat_printNat_aux (f : Nat) :
    ∀ n, n < f → ∀ a : Nat,
      List.foldl (fun a c => a * 10 + digitVal c) a (printNatAux f n)
        = a * tenPowAux f n + n := by
  induction f with
  | zero => omega
  | succ f ih =>
    intro n hn a
    simp only [printNatAux, tenPowAux]
    split
    · next h =>
      simp only [List.foldl_cons, List.foldl_nil]
      rw [(digitChar_lt_10 n h).2]
    · next h =>
      rw [List.foldl_append]
      rw [ih (n / 10) (by omega) a]
      simp only [List.foldl_cons, List.foldl_nil]
      rw [(digitChar_lt_10 (n % 10) (Nat.mod_lt _ (by omega))).2]
      have : n % 10 + 10 * (n / 10) = n := Nat.mod_add_div n 10
      ring_nf
      omega

theorem digitsToNat_printNat (n : Nat) : digitsToNat (printNatChars n) = n := by
  unfold digitsToNat printNatChars
  rw [digitsToNat_printNat_aux (n + 1) n (by omega) 0]
  omega

theorem takeWhile_append_of_all {p : Char → Bool} :
    ∀ (l r : List Char), (∀ c ∈ l, p c = true) →
      (∀ c, r.head? = some c → p c = false) →
      (l ++ r).takeWhile p = l ∧ (l ++ r).dropWhile p = r := by
  intro l r hl hr
  induction l with
  | nil =>
    simp only [List.nil_append]
    cases r with
    | nil => exact ⟨rfl, rfl⟩
    | cons c t =>
      have hc := hr c rfl
      constructor
      · simp [List.takeWhile_cons, hc]
      · simp [List.dropWhile_cons, hc]
  | cons x xs ihx =>
    have hx : p x = true := hl x (by simp)
    have ih := ihx (fun c hc => hl c (by simp [hc]))
    simp only [List.cons_append, List.takeWhile_cons, List.dropWhile_cons, hx]
    exact ⟨by simp [ih.1], by simp [ih.2]⟩

theorem parseNatFrom_printNat (n : Nat) (rest : List Char)
    (hr : digitStart rest = false) :
    parseNatFrom (printNatChars n ++ rest) = some (n, rest) := by
  have hd := printNatChars_digits n
  have hsplit := takeWhile_append_of_all (p := isDigitC) (printNatChars n) rest
    hd.2 (by
      intro c hc
      cases rest with
      | nil => simp at hc
      | cons a t =>
        simp only [List.head?_cons, Option.some.injEq] at hc
        subst hc
        simpa [digitStart] using hr)
  have hne : (printNatChars n).isEmpty = false := by
    cases h : printNatChars n with
    | nil => exact absurd h hd.1
    | cons a b => rfl
  simp only [parseNatFrom, hsplit.1, hsplit.2, hne, Bool.false_eq_true, if_false,
    digitsToNat_printNat]

/-! ### The JSON codec: `json.dump` / `json.load`

`stores._write_data` and `stores._load_data` delegate the structured format
to Python's `json` module; `v1_0.get_data` calls `json.loads` on response
bodies.  The serializer below follows `json.dumps` with its default
arguments: separators are a comma-space and a colon-space, `ensure_ascii`
escapes everything outside printable ASCII, and integers print in decimal.
The parser is a recursive-descent reader of the same grammar, with a fuel
argument to make termination structural. -/

/-- Whitespace skipped between JSON tokens. -/
def isJsonWs (c : Char) : Bool :=
  c = ' ' || c = '\t' || c = '\n' || c = '\r'

/-- Drop leading JSON whitespace. -/
def skipWs : List Char → List Char
  | [] => []
  | c :: t => if isJsonWs c then skipWs t else c :: t

/-- Lower-case hex digit for `\uXXXX` escapes. -/
def hexDigitChar (n : Nat) : Char :=
  if n < 10 then Nat.digitChar n else Char.ofNat (87 + n)

/-- Four-digit hex rendering of a code point (BMP; astral code points would
need surrogate pairs, which no theorem below exercises). -/
def hex4 (n : Nat) : List Char :=
  [hexDigitChar (n / 4096 % 16), hexDigitChar (n / 256 % 16),
   hexDigitChar (n / 16 % 16), hexDigitChar (n % 16)]

/-- `json.dumps` escaping of one string character (default `ensure_ascii`). -/
def escapeChar (c : Char) : List Char :=
  if c = '"' then ['\\', '"']
  else if c = '\\' then ['\\', '\\']
  else if c = '\n' then ['\\', 'n']
  else if c = '\r' then ['\\', 'r']
  else if c = '\t' then ['\\', 't']
  else if c.toNat = 8 then ['\\', 'b']
  else if c.toNat = 12 then ['\\', 'f']
  else if c.toNat < 32 || 126 < c.toNat then '\\' :: 'u' :: hex4 (c.toNat % 65536)
  else [c]

/-- Escape a whole string body. -/
def escapeChars : List Char → List Char
  | [] => []
  | c :: t => escapeChar c ++ escapeChars t

/-- A character the serializer passes through unescaped: printable ASCII
other than the quote and the backslash. -/
def plainChar (c : Char) : Bool :=
  (32 ≤ c.toNat && c.toNat ≤ 126) && !(c = '"') && !(c = '\\')

/-- A string made only of `plainChar`s. -/
def plainStr (s : String) : Bool :=
  s.data.all plainChar

mutual
/-- `json.dumps` with default separators, on a `PyVal` tree.  (`vbytes` is
not serializable; `write_data` guards with `jsonSerializable` before calling
this, mirroring the `TypeError` that `json.dump` raises.) -/
def printJsonV : PyVal → List Char
  | .vnone => ['n', 'u', 'l', 'l']
  | .vbool b => if b then ['t', 'r', 'u', 'e'] else ['f', 'a', 'l', 's', 'e']
  | .vint n => printIntChars n
  | .vstr s => '"' :: (escapeChars s.data ++ ['"'])
  | .vbytes _ => []
  | .vlist .lnil => ['[', ']']
  | .vlist (.lcons x xs) => '[' :: ((printJsonV x ++ printJsonRestL xs) ++ [']'])
  | .vdict .dnil => [lbraceChar, rbraceChar]
  | .vdict (.dcons k v t) =>
      lbraceChar ::
        ((('"' :: (escapeChars k.data ++ ['"', ':', ' '])) ++
          (printJsonV v ++ printJsonRestD t)) ++ [rbraceChar])
/-- The remaining elements of a JSON array, each preceded by a comma-space. -/
def printJsonRestL : PyList → List Char
  | .lnil => []
  | .lcons x xs => ',' :: ' ' :: (printJsonV x ++ printJsonRestL xs)
/-- The remaining members of a JSON object, each preceded by a comma-space. -/
def printJsonRestD : PyDict → List Char
  | .dnil => []
  | .dcons k v t =>
      ',' :: ' ' :: (('"' :: (escapeChars k.data ++ ['"', ':', ' '])) ++
        (printJsonV v ++ printJsonRestD t))
end

mutual
/-- A value `json.dump` accepts (no `bytes` anywhere). -/
def jsonSerializable : PyVal → Bool
  | .vnone => true
  | .vbool _ => true
  | .vint _ => true
  | .vstr _ => true
  | .vbytes _ => false
  | .vlist xs => jsonSerializableL xs
  | .vdict t => jsonSerializableD t
/-- Serializability for each element of a list. -/
def jsonSerializableL : PyList → Bool
  | .lnil => true
  | .lcons x xs => jsonSerializable x && jsonSerializableL xs
/-- Serializability for each value of a dictionary. -/
def jsonSerializableD : PyDict → Bool
  | .dnil => true
  | .dcons _ v t => jsonSerializable v && jsonSerializableD t
end

mutual
/-- The payloads whose round-trip the spec asserts: serializable trees
whose strings (and keys) need no escaping. -/
def validJson : PyVal → Bool
  | .vnone => true
  | .vbool _ => true
  | .vint _ => true
  | .vstr s => plainStr s
  | .vbytes _ => false
  | .vlist xs => validJsonL xs
  | .vdict t => validJsonD t
/-- Validity for each element of a list. -/
def validJsonL : PyList → Bool
  | .lnil => true
  | .lcons x xs => validJson x && validJsonL xs
/-- Validity for keys and values of a dictionary. -/
def validJsonD : PyDict → Bool
  | .dnil => true
  | .dcons k v t => plainStr k && validJson v && validJsonD t
end

/-- Value of a hex digit, for `\uXXXX` escapes. -/
def hexVal (c : Char) : Option Nat :=
  if 48 ≤ c.toNat && c.toNat ≤ 57 then some (c.toNat - 48)
  else if 97 ≤ c.toNat && c.toNat ≤ 102 then some (c.toNat - 87)
  else if 65 ≤ c.toNat && c.toNat ≤ 70 then some (c.toNat - 55)
  else none

/-- Invert a single-character escape. -/
def unescapeChar (c : Char) : Option Char :=
  if c = '"' then some '"'
  else if c = '\\' then some '\\'
  else if c = '/' then some '/'
  else if c = 'n' then some '\n'
  else if c = 'r' then some '\r'
  else if c = 't' then some '\t'
  else if c = 'b' then some (Char.ofNat 8)
  else if c = 'f' then some (Char.ofNat 12)
  else none

/-- Parse a JSON string body up to its closing quote, returning the decoded
characters and the remaining input. -/
def parseStrBody : List Char → Option (List Char × List Char)
  | [] => none
  | c :: rest =>
    if c = '"' then some ([], rest)
    else if c = '\\' then
      match rest with
      | [] => none
      | e :: rest2 =>
        if e = 'u' then
          match rest2 with
          | a :: b :: c2 :: d :: rest3 =>
            match hexVal a, hexVal b, hexVal c2, hexVal d with
            | some ha, some hb, some hc, some hd =>
              (parseStrBody rest3).map
                (fun p => (Char.ofNat (((ha * 16 + hb) * 16 + hc) * 16 + hd) :: p.1, p.2))
            | _, _, _, _ => none
          | _ => none
        else
          match unescapeChar e with
          | some u => (parseStrBody rest2).map (fun p => (u :: p.1, p.2))
          | none => none
    else (parseStrBody rest).map (fun p => (c :: p.1, p.2))

mutual
/-- Recursive-descent JSON value parser (fuel-indexed). -/
def parseVal : Nat → List Char → Option (PyVal × List Char)
  | 0, _ => none
  | Nat.succ f, cs0 =>
    match skipWs cs0 with
    | [] => none
    | c :: rest =>
      if c = 'n' then
        match rest with
        | 'u' :: 'l' :: 'l' :: r => some (.vnone, r)
        | _ => none
      else if c = 't' then
        match rest with
        | 'r' :: 'u' :: 'e' :: r => some (.vbool true, r)
        | _ => none
      else if c = 'f' then
        match rest with
        | 'a' :: 'l' :: 's' :: 'e' :: r => some (.vbool false, r)
        | _ => none
      else if c = '"' then
        (parseStrBody rest).map (fun p => (.vstr (String.mk p.1), p.2))
      else if c = '[' then
        match skipWs rest with
        | [] => none
        | c2 :: r2 =>
          if c2 = ']' then some (.vlist .lnil, r2)
          else (parseElems f (c2 :: r2)).map (fun p => (.vlist p.1, p.2))
      else if c = lbraceChar then
        match skipWs rest with
        | [] => none
        | c2 :: r2 =>
          if c2 = rbraceChar then some (.vdict .dnil, r2)
          else (parseMembers f (c2 :: r2)).map (fun p => (.vdict p.1, p.2))
      else if c = '-' then
        (parseNatFrom rest).map (fun p => (.vint (-(p.1 : Int)), p.2))
      else if isDigitC c then
        (parseNatFrom (c :: rest)).map (fun p => (.vint (p.1 : Int), p.2))
      else none
/-- Parse the elements of a non-empty JSON array, up to and including the
closing bracket. -/
def parseElems : Nat → List Char → Option (PyList × List Char)
  | 0, _ => none
  | Nat.succ f, cs =>
    match parseVal f cs with
    | none => none
    | some (v, r) =>
      match skipWs r with
      | [] => none
      | c :: r2 =>
        if c = ']' then some (.lcons v .lnil, r2)
        else if c = ',' then
          match parseElems f (skipWs r2) with
          | none => none
          | some (l, r3) => some (.lcons v l, r3)
        else none
/-- Parse the members of a non-empty JSON object, up to and including the
closing brace. -/
def parseMembers : Nat → List Char → Option (PyDict × List Char)
  | 0, _ => none
  | Nat.succ f, cs =>
    match cs with
    | [] => none
    | c :: r =>
      if c = '"' then
        match parseStrBody r with
        | none => none
        | some (k, r1) =>
          match skipWs r1 with
          | [] => none
          | c2 :: r2 =>
            if c2 = ':' then
              match parseVal f r2 with
              | none => none
              | some (v, r3) =>
                match skipWs r3 with
                | [] => none
                | c3 :: r4 =>
                  if c3 = rbraceChar then some (.dcons (String.mk k) v .dnil, r4)
                  else if c3 = ',' then
                    match parseMembers f (skipWs r4) with
                    | none => none
                    | some (d, r5) => some (.dcons (String.mk k) v d, r5)
                  else none
            else none
      else none
end

/-- `json.loads`: parse a complete document, requiring only trailing
whitespace after the value.  The fuel is generous for any input the
round-trip theorems feed it (see `sizeV_le_print`). -/
def parseJsonStr (s : String) : Option PyVal :=
  match parseVal (2 * s.data.length + 2) s.data with
  | some (v, rest) => if skipWs rest = [] then some v else none
  | none => none

/-- The head dispatch of `parseVal`, as a standalone function for use in
proofs (`parseVal_head_eq` ties it to `parseVal` definitionally). -/
def parseValHead (f : Nat) (c : Char) (rest : List Char) :
    Option (PyVal × List Char) :=
  if c = 'n' then
    match rest with
    | 'u' :: 'l' :: 'l' :: r => some (.vnone, r)
    | _ => none
  else if c = 't' then
    match rest with
    | 'r' :: 'u' :: 'e' :: r => some (.vbool true, r)
    | _ => none
  else if c = 'f' then
    match rest with
    | 'a' :: 'l' :: 's' :: 'e' :: r => some (.vbool false, r)
    | _ => none
  else if c = '"' then
    (parseStrBody rest).map (fun p => (.vstr (String.mk p.1), p.2))
  else if c = '[' then
    match skipWs rest with
    | [] => none
    | c2 :: r2 =>
      if c2 = ']' then some (.vlist .lnil, r2)
      else (parseElems f (c2 :: r2)).map (fun p => (.vlist p.1, p.2))
  else if c = lbraceChar then
    match skipWs rest with
    | [] => none
    | c2 :: r2 =>
      if c2 = rbraceChar then some (.vdict .dnil, r2)
      else (parseMembers f (c2 :: r2)).map (fun p => (.vdict p.1, p.2))
  else if c = '-' then
    (parseNatFrom rest).map (fun p => (.vint (-(p.1 : Int)), p.2))
  else if isDigitC c then
    (parseNatFrom (c :: rest)).map (fun p => (.vint (p.1 : Int), p.2))
  else none

/-! ### Correctness of the JSON parser on serializer output -/

theorem skipWs_cons_nonws {c : Char} (t : List Char) (h : isJsonWs c = false) :
    skipWs (c :: t) = c :: t := by
  simp [skipWs, h]

theorem skipWs_space (t : List Char) : skipWs (' ' :: t) = skipWs t := by
  simp [skipWs, isJsonWs]

theorem parseVal_head_eq (f : Nat) {c : Char} (cs : List Char)
    (h : isJsonWs c = false) :
    parseVal (f + 1) (c :: cs) = parseValHead f c cs := by
  simp only [parseVal, skipWs, h, Bool.false_eq_true, if_false]
  rfl

theorem parseVal_space (f : Nat) (cs : List Char) :
    parseVal f (' ' :: cs) = parseVal f cs := by
  cases f with
  | zero => rfl
  | succ f => simp only [parseVal, skipWs_space]

theorem parseVal_null (f : Nat) (r : List Char) :
    parseVal (f + 1) ('n' :: 'u' :: 'l' :: 'l' :: r) = some (.vnone, r) := rfl

theorem parseVal_true (f : Nat) (r : List Char) :
    parseVal (f + 1) ('t' :: 'r' :: 'u' :: 'e' :: r) = some (.vbool true, r) := rfl

theorem parseVal_false (f : Nat) (r : List Char) :
    parseVal (f + 1) ('f' :: 'a' :: 'l' :: 's' :: 'e' :: r) = some (.vbool false, r) := rfl

theorem parseVal_quote (f : Nat) (cs : List Char) :
    parseVal (f + 1) ('"' :: cs)
      = (parseStrBody cs).map (fun p => (.vstr (String.mk p.1), p.2)) := rfl

theorem parseVal_lbrack (f : Nat) (cs : List Char) :
    parseVal (f + 1) ('[' :: cs) =
      (match skipWs cs with
       | [] => none
       | c2 :: r2 =>
         if c2 = ']' then some (.vlist .lnil, r2)
         else (parseElems f (c2 :: r2)).map (fun p => (.vlist p.1, p.2))) := rfl

theorem parseVal_lbrace (f : Nat) (cs : List Char) :
    parseVal (f + 1) (lbraceChar :: cs) =
      (match skipWs cs with
       | [] => none
       | c2 :: r2 =>
         if c2 = rbraceChar then some (.vdict .dnil, r2)
         else (parseMembers f (c2 :: r2)).map (fun p => (.vdict p.1, p.2))) := rfl

theorem parseVal_minus (f : Nat) (cs : List Char) :
    parseVal (f + 1) ('-' :: cs)
      = (parseNatFrom cs).map (fun p => (.vint (-(p.1 : Int)), p.2)) := rfl

theorem isDigitC_bounds {c : Char} (h : isDigitC c = true) :
    48 ≤ c.toNat ∧ c.toNat ≤ 57 := by
  simpa [isDigitC] using h

theorem isDigitC_not_ws {c : Char} (h : isDigitC c = true) : isJsonWs c = false := by
  have hb := isDigitC_bounds h
  simp only [isJsonWs, Bool.or_eq_false_iff, decide_eq_false_iff_not]
  refine ⟨⟨⟨?_, ?_⟩, ?_⟩, ?_⟩ <;>
    exact fun hc => by subst hc; exact absurd hb.1 (by decide)

theorem parseVal_digit (f : Nat) {c : Char} (cs : List Char) (h : isDigitC c = true) :
    parseVal (f + 1) (c :: cs)
      = (parseNatFrom (c :: cs)).map (fun p => (.vint (p.1 : Int), p.2)) := by
  rw [parseVal_head_eq f cs (isDigitC_not_ws h)]
  unfold parseValHead
  rw [if_neg (show ¬(c = 'n') by intro hc; subst hc; exact absurd h (by decide)),
    if_neg (show ¬(c = 't') by intro hc; subst hc; exact absurd h (by decide)),
    if_neg (show ¬(c = 'f') by intro hc; subst hc; exact absurd h (by decide)),
    if_neg (show ¬(c = '"') by intro hc; subst hc; exact absurd h (by decide)),
    if_neg (show ¬(c = '[') by intro hc; subst hc; exact absurd h (by decide)),
    if_neg (show ¬(c = lbraceChar) by intro hc; subst hc; exact absurd h (by decide)),
    if_neg (show ¬(c = '-') by intro hc; subst hc; exact absurd h (by decide)),
    if_pos h]

theorem escapeChar_plain {c : Char} (h : plainChar c = true) : escapeChar c = [c] := by
  have hb : (32 ≤ c.toNat ∧ c.toNat ≤ 126) ∧ ¬(c = '"') ∧ ¬(c = '\\') := by
    simpa [plainChar, and_assoc] using h
  have hlow : ∀ d : Char, Char.toNat d < 32 → ¬(c = d) := by
    intro d hd hc
    rw [hc] at hb
    omega
  unfold escapeChar
  rw [if_neg hb.2.1, if_neg hb.2.2, if_neg (hlow '\n' (by decide)),
    if_neg (hlow '\r' (by decide)), if_neg (hlow '\t' (by decide)),
    if_neg (by omega : ¬(c.toNat = 8)), if_neg (by omega : ¬(c.toNat = 12)),
    if_neg (by simp only [Bool.or_eq_true, decide_eq_true_eq, not_or]; omega)]

theorem parseStrBody_plain (s : List Char) (rest : List Char)
    (hs : s.all plainChar = true) :
    parseStrBody (escapeChars s ++ '"' :: rest) = some (s, rest) := by
  induction s with
  | nil =>
    simp only [escapeChars, List.nil_append]
    rw [parseStrBody.eq_def]
    simp
  | cons c cs ih =>
    have hc : plainChar c = true := by
      simp only [List.all_cons, Bool.and_eq_true] at hs
      exact hs.1
    have hcs : cs.all plainChar = true := by
      simp only [List.all_cons, Bool.and_eq_true] at hs
      exact hs.2
    have hb : (32 ≤ c.toNat ∧ c.toNat ≤ 126) ∧ ¬(c = '"') ∧ ¬(c = '\\') := by
      simpa [plainChar, and_assoc] using hc
    rw [show escapeChars (c :: cs) = escapeChar c ++ escapeChars cs from rfl,
      escapeChar_plain hc]
    simp only [List.cons_append, List.nil_append]
    rw [parseStrBody.eq_def]
    simp only [if_neg hb.2.1, if_neg hb.2.2, ih hcs]
    rfl

mutual
/-- Structural size of a value, used as a fuel bound for the parser. -/
def sizeV : PyVal → Nat
  | .vlist xs => sizeL xs + 1
  | .vdict t => sizeD t + 1
  | _ => 1
/-- Structural size of the elements of a list. -/
def sizeL : PyList → Nat
  | .lnil => 0
  | .lcons x xs => sizeV x + sizeL xs + 1
/-- Structural size of the members of a dictionary. -/
def sizeD : PyDict → Nat
  | .dnil => 0
  | .dcons _ v t => sizeV v + sizeD t + 1
end

theorem sizeV_pos (x : PyVal) : 1 ≤ sizeV x := by
  cases x <;> simp [sizeV]

/-- The first character a serialized JSON value can start with: never
whitespace and never a closing delimiter or separator. -/
theorem printJson_uncons (x : PyVal) (hx : validJson x = true) :
    ∃ c t, printJsonV x = c :: t ∧ isJsonWs c = false ∧ ¬(c = ']') ∧
      ¬(c = rbraceChar) ∧ ¬(c = ',') := by
  cases x with
  | vnone => exact ⟨'n', _, rfl, by decide, by decide, by decide, by decide⟩
  | vbool b =>
    cases b with
    | false => exact ⟨'f', _, rfl, by decide, by decide, by decide, by decide⟩
    | true => exact ⟨'t', _, rfl, by decide, by decide, by decide, by decide⟩
  | vint n =>
    by_cases hn : n < 0
    · refine ⟨'-', printNatChars n.natAbs, ?_, by decide, by decide, by decide, by decide⟩
      simp [printJsonV, printIntChars, hn]
    · cases hh : printNatChars n.toNat with
      | nil => exact absurd hh (printNatChars_digits n.toNat).1
      | cons c t =>
        have hdig : isDigitC c = true :=
          (printNatChars_digits n.toNat).2 c (by rw [hh]; simp)
        refine ⟨c, t, ?_, isDigitC_not_ws hdig, ?_, ?_, ?_⟩
        · simp [printJsonV, printIntChars, hn, hh]
        · exact fun hc => by subst hc; exact absurd hdig (by decide)
        · exact fun hc => by subst hc; exact absurd hdig (by decide)
        · exact fun hc => by subst hc; exact absurd hdig (by decide)
  | vstr s => exact ⟨'"', _, rfl, by decide, by decide, by decide, by decide⟩
  | vbytes s => exact absurd hx (by simp [validJson])
  | vlist xs =>
    cases xs with
    | lnil => exact ⟨'[', _, rfl, by decide, by decide, by decide, by decide⟩
    | lcons a as => exact ⟨'[', _, rfl, by decide, by decide, by decide, by decide⟩
  | vdict t =>
    cases t with
    | dnil => exact ⟨lbraceChar, _, rfl, by decide, by decide, by decide, by decide⟩
    | dcons k v t2 => exact ⟨lbraceChar, _, rfl, by decide, by decide, by decide, by decide⟩

theorem digitStart_restL (xs : PyList) (R : List Char) :
    digitStart (printJsonRestL xs ++ ']' :: R) = false := by
  cases xs <;> rfl

theorem digitStart_restD (t : PyDict) (R : List Char) :
    digitStart (printJsonRestD t ++ rbraceChar :: R) = false := by
  cases t <;> rfl

mutual
/-- The parser inverts the serializer on any valid value, leaving whatever
follows the printed text untouched. -/
theorem parse_print_v (x : PyVal) (f : Nat) (rest : List Char)
    (hx : validJson x = true) (hr : digitStart rest = false) (hf : sizeV x ≤ f) :
    parseVal f (printJsonV x ++ rest) = some (x, rest) := by
  obtain ⟨f, rfl⟩ : ∃ g, f = g + 1 := ⟨f - 1, by have := sizeV_pos x; omega⟩
  cases x with
  | vnone => exact parseVal_null f rest
  | vbool b =>
    cases b with
    | false => exact parseVal_false f rest
    | true => exact parseVal_true f rest
  | vint n =>
    by_cases hn : n < 0
    · have hpr : printJsonV (.vint n) = '-' :: printNatChars n.natAbs := by
        simp [printJsonV, printIntChars, hn]
      rw [hpr, List.cons_append, parseVal_minus,
        parseNatFrom_printNat n.natAbs rest hr]
      have hcast : -((n.natAbs : Int)) = n := by omega
      exact congrArg (fun z => some (PyVal.vint z, rest)) hcast
    · have hpr : printJsonV (.vint n) = printNatChars n.toNat := by
        simp [printJsonV, printIntChars, hn]
      cases hh : printNatChars n.toNat with
      | nil => exact absurd hh (printNatChars_digits n.toNat).1
      | cons c t =>
        have hdig : isDigitC c = true :=
          (printNatChars_digits n.toNat).2 c (by rw [hh]; simp)
        rw [hpr, hh, List.cons_append, parseVal_digit f _ hdig,
          ← List.cons_append, ← hh, parseNatFrom_printNat n.toNat rest hr]
        have hcast : ((n.toNat : Int)) = n := by omega
        exact congrArg (fun z => some (PyVal.vint z, rest)) hcast
  | vstr s =>
    have hps : s.data.all plainChar = true := by
      simpa [validJson, plainStr] using hx
    have hsh : printJsonV (.vstr s) ++ rest
        = '"' :: (escapeChars s.data ++ '"' :: rest) := by
      simp [printJsonV]
    rw [hsh, parseVal_quote, parseStrBody_plain s.data rest hps]
    rfl
  | vbytes s => exact absurd hx (by simp [validJson])
  | vlist xs =>
    cases xs with
    | lnil =>
      rw [show printJsonV (.vlist .lnil) ++ rest = '[' :: (']' :: rest) from rfl,
        parseVal_lbrack, skipWs_cons_nonws rest (by decide)]
      simp
    | lcons a as =>
      have hv : validJson a = true ∧ validJsonL as = true := by
        simpa [validJson, validJsonL, Bool.and_eq_true] using hx
      obtain ⟨c, t, hpr, hws, hbr, _, _⟩ := printJson_uncons a hv.1
      have hflat : printJsonV (.vlist (.lcons a as)) ++ rest
          = '[' :: (printJsonV a ++ (printJsonRestL as ++ ']' :: rest)) := by
        simp [printJsonV, List.append_assoc]
      rw [hflat, parseVal_lbrack, hpr, List.cons_append,
        skipWs_cons_nonws _ hws]
      simp only [if_neg hbr]
      rw [← List.cons_append, ← hpr,
        parse_print_elems a as f rest hv.1 hv.2
          (by simp only [sizeV, sizeL] at hf; omega)]
      rfl
  | vdict t =>
    cases t with
    | dnil =>
      rw [show printJsonV (.vdict .dnil) ++ rest
          = lbraceChar :: (rbraceChar :: rest) from rfl,
        parseVal_lbrace, skipWs_cons_nonws rest (by decide)]
      simp
    | dcons k v t2 =>
      have hv : plainStr k = true ∧ validJson v = true ∧ validJsonD t2 = true := by
        simpa [validJson, validJsonD, Bool.and_eq_true, and_assoc] using hx
      have hflat : printJsonV (.vdict (.dcons k v t2)) ++ rest
          = lbraceChar :: ('"' :: (escapeChars k.data ++
              ('"' :: ':' :: ' ' :: (printJsonV v ++
                (printJsonRestD t2 ++ rbraceChar :: rest))))) := by
        simp [printJsonV, List.append_assoc]
      rw [hflat, parseVal_lbrace, skipWs_cons_nonws _ (by decide)]
      simp only [if_neg (show ¬('"' = rbraceChar) by decide)]
      rw [parse_print_membs k v t2 f rest hv.1 hv.2.1 hv.2.2
        (by simp only [sizeV, sizeD] at hf; omega)]
      rfl
termination_by f
/-- The element parser inverts the serializer on a non-empty array body. -/
theorem parse_print_elems (a : PyVal) (xs : PyList) (f : Nat) (rest : List Char)
    (ha : validJson a = true) (hxs : validJsonL xs = true)
    (hf : sizeV a + sizeL xs + 1 ≤ f) :
    parseElems f (printJsonV a ++ (printJsonRestL xs ++ ']' :: rest))
      = some (.lcons a xs, rest) := by
  obtain ⟨f, rfl⟩ : ∃ g, f = g + 1 := ⟨f - 1, by omega⟩
  simp only [parseElems]
  rw [parse_print_v a f (printJsonRestL xs ++ ']' :: rest) ha
    (digitStart_restL xs rest) (by have := sizeV_pos a; omega)]
  cases xs with
  | lnil =>
    simp only [printJsonRestL, List.nil_append]
    rw [skipWs_cons_nonws rest (by decide)]
    simp
  | lcons y ys =>
    have hyv : validJson y = true ∧ validJsonL ys = true := by
      simpa [validJsonL, Bool.and_eq_true] using hxs
    obtain ⟨c, t, hpr, hws, _, _, _⟩ := printJson_uncons y hyv.1
    simp only [printJsonRestL, List.cons_append, List.append_assoc]
    rw [skipWs_cons_nonws _ (by decide)]
    simp only [if_neg (show ¬(',' = ']') by decide), if_pos rfl, skipWs_space]
    rw [hpr, List.cons_append, skipWs_cons_nonws _ hws, ← List.cons_append, ← hpr,
      parse_print_elems y ys f rest hyv.1 hyv.2
        (by simp only [sizeL] at hf; have := sizeV_pos a; omega)]
    simp
termination_by f
/-- The member parser inverts the serializer on a non-empty object body. -/
theorem parse_print_membs (k : String) (v : PyVal) (t : PyDict) (f : Nat)
    (rest : List Char) (hk : plainStr k = true) (hv : validJson v = true)
    (ht : validJsonD t = true) (hf : sizeV v + sizeD t + 1 ≤ f) :
    parseMembers f ('"' :: (escapeChars k.data ++
        ('"' :: ':' :: ' ' :: (printJsonV v ++
          (printJsonRestD t ++ rbraceChar :: rest)))))
      = some (.dcons k v t, rest) := by
  obtain ⟨f, rfl⟩ : ∃ g, f = g + 1 := ⟨f - 1, by omega⟩
  simp only [parseMembers]
  rw [parseStrBody_plain k.data _ (by simpa [plainStr] using hk)]
  simp only [if_true]
  rw [skipWs_cons_nonws _ (by decide)]
  simp only [if_true, parseVal_space]
  rw [parse_print_v v f (printJsonRestD t ++ rbraceChar :: rest) hv
    (digitStart_restD t rest) (by have := sizeV_pos v; omega)]
  cases t with
  | dnil =>
    simp only [printJsonRestD, List.nil_append]
    rw [skipWs_cons_nonws rest (by decide)]
    simp only [if_pos rfl]
    rfl
  | dcons k2 v2 t2 =>
    have h2 : plainStr k2 = true ∧ validJson v2 = true ∧ validJsonD t2 = true := by
      simpa [validJsonD, Bool.and_eq_true, and_assoc] using ht
    simp only [printJsonRestD, List.cons_append, List.append_assoc, List.nil_append]
    rw [skipWs_cons_nonws _ (by decide)]
    simp only [if_neg (show ¬(',' = rbraceChar) by decide),
      if_pos rfl, skipWs_space]
    rw [skipWs_cons_nonws _ (by decide),
      parse_print_membs k2 v2 t2 f rest h2.1 h2.2.1 h2.2.2
        (by simp only [sizeD] at hf; have := sizeV_pos v; omega)]
    rfl
termination_by f
end

mutual
/-- The parser fuel bound: a value's size never exceeds its printed length
plus one. -/
theorem sizeV_le_print (n : Nat) (x : PyVal) (hn : sizeV x ≤ n) :
    sizeV x ≤ (printJsonV x).length + 1 := by
  cases x with
  | vnone => simp [sizeV]
  | vbool b => simp [sizeV]
  | vint m => simp [sizeV]
  | vstr s => simp [sizeV]
  | vbytes s => simp [sizeV, printJsonV]
  | vlist xs =>
    cases xs with
    | lnil => simp [sizeV, sizeL, printJsonV]
    | lcons a as =>
      have hpos : 1 ≤ n := le_trans (sizeV_pos _) hn
      have h1 : sizeV a ≤ (printJsonV a).length + 1 :=
        sizeV_le_print (n - 1) a (by simp only [sizeV, sizeL] at hn; omega)
      have h2 : sizeL as ≤ (printJsonRestL as).length :=
        sizeL_le_print (n - 1) as (by simp only [sizeV, sizeL] at hn; omega)
      simp only [sizeV, sizeL, printJsonV, List.length_cons, List.length_append]
      omega
  | vdict t =>
    cases t with
    | dnil => simp [sizeV, sizeD, printJsonV]
    | dcons k v t2 =>
      have hpos : 1 ≤ n := le_trans (sizeV_pos _) hn
      have h1 : sizeV v ≤ (printJsonV v).length + 1 :=
        sizeV_le_print (n - 1) v (by simp only [sizeV, sizeD] at hn; omega)
      have h2 : sizeD t2 ≤ (printJsonRestD t2).length :=
        sizeD_le_print (n - 1) t2 (by simp only [sizeV, sizeD] at hn; omega)
      simp only [sizeV, sizeD, printJsonV, List.length_cons, List.length_append]
      omega
termination_by n
/-- Companion bound for array tails. -/
theorem sizeL_le_print (n : Nat) (xs : PyList) (hn : sizeL xs ≤ n) :
    sizeL xs ≤ (printJsonRestL xs).length := by
  cases xs with
  | lnil => simp [sizeL, printJsonRestL]
  | lcons y ys =>
    have hpos : 1 ≤ n := by
      have := sizeV_pos y
      simp only [sizeL] at hn
      omega
    have h1 : sizeV y ≤ (printJsonV y).length + 1 :=
      sizeV_le_print (n - 1) y (by simp only [sizeL] at hn; have := sizeV_pos y; omega)
    have h2 : sizeL ys ≤ (printJsonRestL ys).length :=
      sizeL_le_print (n - 1) ys (by simp only [sizeL] at hn; have := sizeV_pos y; omega)
    simp only [sizeL, printJsonRestL, List.length_cons, List.length_append]
    omega
termination_by n
/-- Companion bound for object tails. -/
theorem sizeD_le_print (n : Nat) (t : PyDict) (hn : sizeD t ≤ n) :
    sizeD t ≤ (printJsonRestD t).length := by
  cases t with
  | dnil => simp [sizeD, printJsonRestD]
  | dcons k v t2 =>
    have hpos : 1 ≤ n := by
      have := sizeV_pos v
      simp only [sizeD] at hn
      omega
    have h1 : sizeV v ≤ (printJsonV v).length + 1 :=
      sizeV_le_print (n - 1) v (by simp only [sizeD] at hn; have := sizeV_pos v; omega)
    have h2 : sizeD t2 ≤ (printJsonRestD t2).length :=
      sizeD_le_print (n - 1) t2 (by simp only [sizeD] at hn; have := sizeV_pos v; omega)
    simp only [sizeD, printJsonRestD, List.length_cons, List.length_append]
    omega
termination_by n
end

mutual
/-- Valid payloads are serializable. -/
theorem serializable_of_valid (n : Nat) (x : PyVal) (hn : sizeV x ≤ n)
    (h : validJson x = true) : jsonSerializable x = true := by
  cases x with
  | vnone => rfl
  | vbool b => rfl
  | vint m => rfl
  | vstr s => rfl
  | vbytes s => exact absurd h (by simp [validJson])
  | vlist xs =>
    have hpos : 1 ≤ n := le_trans (sizeV_pos _) hn
    exact serializableL_of_valid (n - 1) xs
      (by simp only [sizeV] at hn; omega) (by simpa [validJson] using h)
  | vdict t =>
    have hpos : 1 ≤ n := le_trans (sizeV_pos _) hn
    exact serializableD_of_valid (n - 1) t
      (by simp only [sizeV] at hn; omega) (by simpa [validJson] using h)
termination_by n
/-- Companion statement for lists. -/
theorem serializableL_of_valid (n : Nat) (xs : PyList) (hn : sizeL xs ≤ n)
    (h : validJsonL xs = true) : jsonSerializableL xs = true := by
  cases xs with
  | lnil => rfl
  | lcons y ys =>
    have hy : validJson y = true ∧ validJsonL ys = true := by
      simpa [validJsonL, Bool.and_eq_true] using h
    have hpos : 1 ≤ n := by
      have := sizeV_pos y
      simp only [sizeL] at hn
      omega
    have h1 := serializable_of_valid (n - 1) y
      (by simp only [sizeL] at hn; omega) hy.1
    have h2 := serializableL_of_valid (n - 1) ys
      (by simp only [sizeL] at hn; have := sizeV_pos y; omega) hy.2
    simp [jsonSerializableL, h1, h2]
termination_by n
/-- Companion statement for dictionaries. -/
theorem serializableD_of_valid (n : Nat) (t : PyDict) (hn : sizeD t ≤ n)
    (h : validJsonD t = true) : jsonSerializableD t = true := by
  cases t with
  | dnil => rfl
  | dcons k v t2 =>
    have hy : plainStr k = true ∧ validJson v = true ∧ validJsonD t2 = true := by
      simpa [validJsonD, Bool.and_eq_true, and_assoc] using h
    have hpos : 1 ≤ n := by
      have := sizeV_pos v
      simp only [sizeD] at hn
      omega
    have h1 := serializable_of_valid (n - 1) v
      (by simp only [sizeD] at hn; omega) hy.2.1
    have h2 := serializableD_of_valid (n - 1) t2
      (by simp only [sizeD] at hn; have := sizeV_pos v; omega) hy.2.2
    simp [jsonSerializableD, h1, h2]
termination_by n
end

/-- `json.loads` inverts `json.dumps` on every valid payload. -/
theorem parseJsonStr_printJsonV (v : PyVal) (h : validJson v = true) :
    parseJsonStr (String.mk (printJsonV v)) = some v := by
  unfold parseJsonStr
  rw [show (String.mk (printJsonV v)).data = printJsonV v from rfl]
  have hfuel : sizeV v ≤ 2 * (printJsonV v).length + 2 := by
    have := sizeV_le_print (sizeV v) v le_rfl
    omega
  rw [show parseVal (2 * (printJsonV v).length + 2) (printJsonV v)
      = parseVal (2 * (printJsonV v).length + 2) (printJsonV v ++ []) by
        rw [List.append_nil],
    parse_print_v v _ [] h rfl hfuel]
  rfl

/-! ### `str.splitlines` / `bytes.splitlines` and the `csv` module

The embedded code splits on `\n`, `\r` and `\r\n`; the exotic separators
`str.splitlines` additionally recognises never occur in this pipeline.
The csv reader is modeled line-by-line, faithful whenever quoted fields
contain no embedded newlines — the only shape this library ever writes
(`_write_data` quotes single-line fields) or reads back. -/

/-- Accumulating worker for `splitlines` (current line held reversed;
fuel keeps the recursion structural for kernel evaluation). -/
def splitlinesAux : Nat → List Char → List Char → List (List Char)
  | _, [], cur => if cur.isEmpty then [] else [cur.reverse]
  | 0, _ :: _, cur => if cur.isEmpty then [] else [cur.reverse]
  | f + 1, c :: t, cur =>
    if c = '\n' then cur.reverse :: splitlinesAux f t []
    else if c = '\r' then
      match t with
      | '\n' :: t2 => cur.reverse :: splitlinesAux f t2 []
      | _ => cur.reverse :: splitlinesAux f t []
    else splitlinesAux f t (c :: cur)

/-- Python `splitlines`: split into lines, dropping the terminators and
producing no trailing empty line. -/
def splitlinesL (cs : List Char) : List (List Char) :=
  splitlinesAux cs.length cs []

/-- Does a csv field need quoting under the default `QUOTE_MINIMAL`? -/
def csvNeedsQuote (f : List Char) : Bool :=
  f.any (fun c => c = ',' || c = '"' || c = '\r' || c = '\n')

/-- Double every quote character (default `doublequote=True`). -/
def csvEscapeQuotes : List Char → List Char
  | [] => []
  | c :: t =>
      if c = '"' then '"' :: '"' :: csvEscapeQuotes t else c :: csvEscapeQuotes t

/-- Quote a csv field when the dialect requires it. -/
def csvQuoteField (f : String) : String :=
  if csvNeedsQuote f.data then String.mk ('"' :: (csvEscapeQuotes f.data ++ ['"']))
  else f

/-- One `csv.writer.writerow` call with a single field — exactly the shape
`_write_data` produces via `writer.writerow([row])` — with the default
`\r\n` line terminator. -/
def csvWriteRow (field : String) : String := csvQuoteField field ++ "\r\n"

/-- Read a quoted csv field body after its opening quote; returns the field
characters and the input after the closing quote. -/
def csvQuotedBody : List Char → (List Char × List Char)
  | [] => ([], [])
  | '"' :: t =>
    match t with
    | '"' :: t2 =>
      let p := csvQuotedBody t2
      ('"' :: p.1, p.2)
    | _ => ([], t)
  | c :: t =>
    let p := csvQuotedBody t
    (c :: p.1, p.2)

/-- Read an unquoted csv field; the `Option` is the input after a
delimiter, or `none` at end of line. -/
def csvRawField : List Char → (List Char × Option (List Char))
  | [] => ([], none)
  | c :: t =>
    if c = ',' then ([], some t)
    else
      let q := csvRawField t
      (c :: q.1, q.2)

/-- Fields of one (non-empty) csv line. -/
def csvRowFuel : Nat → List Char → List (List Char)
  | 0, _ => []
  | f + 1, cs =>
    match cs with
    | '"' :: t =>
      let p := csvQuotedBody t
      (match p.2 with
       | ',' :: r2 => p.1 :: csvRowFuel f r2
       | _ => [p.1])
    | _ =>
      let q := csvRawField cs
      (match q.2 with
       | some r => q.1 :: csvRowFuel f r
       | none => [q.1])

/-- One row of `csv.reader` output for one input line (an empty line is an
empty row). -/
def csvParseLine (cs : List Char) : List (List Char) :=
  match cs with
  | [] => []
  | c :: t => csvRowFuel ((c :: t).length + 1) (c :: t)

/-! ### Python `str()` / `repr()` (for the csv writer's field conversion) -/

mutual
/-- Python `repr`, on the values this pipeline passes to the csv writer
(string `repr` is modeled without escaping: the library's own data never
contains quotes or backslashes inside row fields). -/
def pyRepr : PyVal → String
  | .vnone => "None"
  | .vbool b => if b then "True" else "False"
  | .vint n => String.mk (printIntChars n)
  | .vstr s => "'" ++ s ++ "'"
  | .vbytes s => "b'" ++ s ++ "'"
  | .vlist .lnil => "[]"
  | .vlist (.lcons x xs) => "[" ++ (pyRepr x ++ (pyReprTailL xs ++ "]"))
  | .vdict .dnil => String.mk [lbraceChar, rbraceChar]
  | .vdict (.dcons k v t) =>
      String.mk [lbraceChar] ++
        ("'" ++ k ++ "': " ++ pyRepr v ++ (pyReprTailD t ++ String.mk [rbraceChar]))
/-- Trailing list elements in a Python list `repr`. -/
def pyReprTailL : PyList → String
  | .lnil => ""
  | .lcons x xs => ", " ++ pyRepr x ++ pyReprTailL xs
/-- Trailing members in a Python dictionary `repr`. -/
def pyReprTailD : PyDict → String
  | .dnil => ""
  | .dcons k v t => ", '" ++ k ++ "': " ++ pyRepr v ++ pyReprTailD t
end

/-- Python `str()`: identity on strings, `repr` otherwise (the conversion
`csv.writer` applies to each field). -/
def pyStr : PyVal → String
  | .vstr s => s
  | .vnone => pyRepr .vnone
  | .vbool b => pyRepr (.vbool b)
  | .vint n => pyRepr (.vint n)
  | .vbytes s => pyRepr (.vbytes s)
  | .vlist xs => pyRepr (.vlist xs)
  | .vdict t => pyRepr (.vdict t)

/-- The whole-stream output of `_write_data` for the tabular format: one
`writerow([row])` per element. -/
def csvWriteAll : PyList → String
  | .lnil => ""
  | .lcons r rs => csvWriteRow (pyStr r) ++ csvWriteAll rs

/-- One parsed csv row as a Python value (a list of string fields). -/
def rowToPy (r : List (List Char)) : PyVal :=
  .vlist (toPyList (r.map (fun f => .vstr (String.mk f))))

/-- Full csv decode of a stream: one row per line. -/
def csvContentToPy (content : String) : PyVal :=
  .vlist (toPyList ((splitlinesL content.data).map (fun l => rowToPy (csvParseLine l))))

/-! ### `stores._write_data` and `stores._load_data` -/

/-- `stores._write_data`: encode a payload in one of the three recognized
formats onto a stream (modeled as the full stream contents); an
unrecognized format is an `AssertionError`, an unserializable payload the
`TypeError` the delegated library raises. -/
def write_data (data_format : String) (data : PyVal) : Except PyErr String :=
  if data_format = "json" then
    if jsonSerializable data then .ok (String.mk (printJsonV data))
    else .error .typeError
  else if data_format = "xml" then
    match data with
    | .vstr s => .ok s
    | _ => .error .typeError
  else if data_format = "csv" then
    match data with
    | .vlist rows => .ok (csvWriteAll rows)
    | _ => .error .typeError
  else .error (.assertionError ("Invalid data format: " ++ data_format))

/-- `stores._load_data`: decode a stream per format (`json.load`, whole
text, or `csv.reader` rows). -/
def load_data (data_format : String) (content : String) : Except PyErr PyVal :=
  if data_format = "json" then
    match parseJsonStr content with
    | some v => .ok v
    | none => .error .jsonDecodeError
  else if data_format = "xml" then .ok (.vstr content)
  else if data_format = "csv" then .ok (csvContentToPy content)
  else .error (.assertionError ("Invalid data format: " ++ data_format))

/-! ### `stores.py`: `DataStore.resolve_filename` and `FileStore` -/

/-- `stores.DEFAULT_FILE_STORE_DIRECTORY`. -/
def DEFAULT_FILE_STORE_DIRECTORY : String := "results"

/-- Python `str.lower` on the ASCII league names this client handles. -/
def strToLower (s : String) : String := String.mk (s.data.map Char.toLower)

/-- `DataStore.resolve_filename`: base name `feed-league-season` (league
lowercased); a `gameid` parameter appends its value; then a `"data"` key
appends `params["date"]` (a `KeyError` when `"date"` is absent), else a
`"fordate"` key appends its value; finally the format as extension. -/
def resolve_filename (league season feed data_format : String)
    (params : Params) : Except PyErr String :=
  let f1 := feed ++ "-" ++ strToLower league ++ "-" ++ season
  let f2 := match pLookup params "gameid" with
    | some g => f1 ++ "-" ++ g
    | none => f1
  let f3 : Except PyErr String :=
    if hasKey params "data" then
      match pLookup params "date" with
      | some d => .ok (f2 ++ "-" ++ d)
      | none => .error (.keyError "date")
    else
      match pLookup params "fordate" with
      | some fd => .ok (f2 ++ "-" ++ fd)
      | none => .ok f2
  match f3 with
  | .ok fn => .ok (fn ++ "." ++ data_format)
  | .error e => .error e

/-- The state a `FileStore` instance owns: its directory path.  (The lazy
`mkdir` of `_initialize_store` has no observable effect on the path-keyed
filesystem map modeling file contents, so only the path is carried.) -/
structure FileStoreState where
  dirPath : String
deriving DecidableEq, Repr

/-- The local filesystem, as a map from paths to file contents. -/
abbrev FS := List (String × String)

/-- `FileStore.__init__`:
`Path(directory if directory is not None else DEFAULT_FILE_STORE_DIRECTORY)`. -/
def FileStore_init (directory : Option String) : FileStoreState :=
  { dirPath :=
      match directory with
      | some d => d
      | none => DEFAULT_FILE_STORE_DIRECTORY }

/-- `FileStore.exists`: resolve the filename and test file presence. -/
def FileStore_exists (st : FileStoreState) (fs : FS)
    (league season feed data_format : String) (params : Params) :
    Except PyErr Bool :=
  match resolve_filename league season feed data_format params with
  | .error e => .error e
  | .ok name => .ok (pLookup fs (st.dirPath ++ "/" ++ name)).isSome

/-- `FileStore.load`: decode the file via `_load_data` when present, else
return `None`. -/
def FileStore_load (st : FileStoreState) (fs : FS)
    (league season feed data_format : String) (params : Params) :
    Except PyErr PyVal :=
  match resolve_filename league season feed data_format params with
  | .error e => .error e
  | .ok name =>
    match pLookup fs (st.dirPath ++ "/" ++ name) with
    | some content => load_data data_format content
    | none => .ok .vnone

/-- `FileStore.store`: encode via `_write_data` and write the file,
returning the path. -/
def FileStore_store (st : FileStoreState) (fs : FS) (data : PyVal)
    (league season feed data_format : String) (params : Params) :
    Except PyErr (String × FS) :=
  match resolve_filename league season feed data_format params with
  | .error e => .error e
  | .ok name =>
    let path := st.dirPath ++ "/" ++ name
    match write_data data_format data with
    | .error e => .error e
    | .ok content => .ok (path, dictSet fs path content)

/-! ### `base64.b64encode` and UTF-8, for the Authorization header -/

/-- UTF-8 encoding of one code point. -/
def utf8Char (n : Nat) : List Nat :=
  if n < 128 then [n]
  else if n < 2048 then [192 + n / 64, 128 + n % 64]
  else if n < 65536 then [224 + n / 4096, 128 + n / 64 % 64, 128 + n % 64]
  else [240 + n / 262144, 128 + n / 4096 % 64, 128 + n / 64 % 64, 128 + n % 64]

/-- Python `str.encode('utf-8')`, as a byte list. -/
def utf8Bytes (s : String) : List Nat :=
  s.data.foldr (fun c acc => utf8Char c.toNat ++ acc) []

/-- The RFC 4648 base64 alphabet. -/
def b64Alphabet : List Char :=
  "ABCDEFGHIJKLMNOPQRSTUVWXYZabcdefghijklmnopqrstuvwxyz0123456789+/".data

/-- One base64 digit. -/
def b64Char (n : Nat) : Char := b64Alphabet.getD n '='

/-- Base64 encode a byte list, with `=` padding. -/
def b64encodeChars : List Nat → List Char
  | [] => []
  | [a] => [b64Char (a / 4), b64Char (a % 4 * 16), '=', '=']
  | [a, b] => [b64Char (a / 4), b64Char (a % 4 * 16 + b / 16), b64Char (b % 16 * 4), '=']
  | a :: b :: c :: t =>
      b64Char (a / 4) :: b64Char (a % 4 * 16 + b / 16) ::
        b64Char (b % 16 * 4 + c / 64) :: b64Char (c % 64) :: b64encodeChars t

/-- `base64.b64encode(...).decode('ascii')`. -/
def b64encode (bytes : List Nat) : String := String.mk (b64encodeChars bytes)

/-! ### `v1_0.py`: the versioned API client -/

/-- The HTTP transport's answer to `requests.get` — status code and body
(the body bytes carried as their UTF-8 text). -/
structure HttpResponse where
  status : Nat
  content : String
deriving DecidableEq, Repr

/-- The mutable state of an `API_v1_0` instance.  `auth` and
`dataStoreAttr` are `Option`s whose `none` models the *absence of the
instance attribute* (the class-level `data_store: DataStore` annotation
creates no attribute, and `__init__` assigns neither `self.auth` nor —
outside the legacy branch — `self.data_store`); accessing an absent
attribute raises `AttributeError`. -/
structure ClientState where
  base_url : String
  headers : Params
  verbose : Bool
  auth : Option (String × String)
  dataStoreAttr : Option FileStoreState
  valid_feeds : List String
deriving DecidableEq, Repr

/-- The twenty known v1.0 feeds, in source order. -/
def valid_feeds_v1_0 : List String :=
  ["cumulative_player_stats", "full_game_schedule", "daily_game_schedule",
   "daily_player_stats", "game_boxscore", "scoreboard", "game_playbyplay",
   "player_gamelogs", "team_gamelogs", "roster_players",
   "game_startinglineup", "active_players", "overall_team_standings",
   "conference_team_standings", "division_team_standings",
   "playoff_team_standings", "player_injuries", "daily_dfs",
   "current_season", "latest_updates"]

/-- `API_v1_0.__init__`.  The `data_store` parameter is read only by the
legacy check `if not data_store and store_type == "file"` — when that test
fails the parameter is dropped and `self.data_store` is never assigned
(modeled as `dataStoreAttr = none`).  `userAgent` stands for the
environment-dependent User-Agent string built from the package version and
`platform.platform()`. -/
def API_v1_0_init (verbose : Bool) (data_store : Option FileStoreState)
    (store_type : Option String) (store_location : Option String)
    (userAgent : String) : ClientState :=
  { base_url := "https://api.mysportsfeeds.com/v1.0/pull"
  , headers := [("Accept-Encoding", "gzip"), ("User-Agent", userAgent)]
  , verbose := verbose
  , auth := none
  , dataStoreAttr :=
      if data_store = none ∧ store_type = some "file" then
        some (FileStore_init store_location)
      else none
  , valid_feeds := valid_feeds_v1_0 }

/-- `API_v1_0.supports_basic_auth`. -/
def supports_basic_auth : Bool := true

/-- `API_v1_0.set_auth_credentials`: store the pair and derive the BASIC
Authorization header from the base64 of `username:password`. -/
def set_auth_credentials (st : ClientState) (username password : String) :
    ClientState :=
  { st with
    auth := some (username, password)
    headers := dictSet st.headers "Authorization"
      ("Basic " ++ b64encode (utf8Bytes (username ++ ":" ++ password))) }

/-- `API_v1_0.determine_url`: no season segment for the special
`current_season` feed. -/
def determine_url (base_url league season feed output_format : String) :
    String :=
  if feed = "current_season" then
    base_url ++ "/" ++ league ++ "/" ++ feed ++ "." ++ output_format
  else
    base_url ++ "/" ++ league ++ "/" ++ season ++ "/" ++ feed ++ "." ++
      output_format

/-- Python `str(list_of_strings)`, for the feed error message. -/
def pyStrOfStrList (xs : List String) : String :=
  "[" ++ String.intercalate ", " (xs.map (fun s => "'" ++ s ++ "'")) ++ "]"

/-- The `ValueError` message for an unknown feed (note the double space,
as in the source). -/
def unknownFeedMsg (feed : String) (feeds : List String) : String :=
  "Unknown feed '" ++ feed ++ "'.  Known values are: " ++ pyStrOfStrList feeds

/-- `API_v1_0.__verify_format`: only `json`, `xml` and `csv` are valid. -/
def verify_format (format_ : String) : Bool :=
  if format_ ≠ "json" ∧ format_ ≠ "xml" ∧ format_ ≠ "csv" then false else true

/-- The keyword-argument loop of `get_data` (lines 119–132): route
`league`/`season`/`feed`/`format` into their variables — with the special
case sending `season` into the parameter map when `kwargs['feed']` is the
`players` feed (a `KeyError` if no `feed` was passed) — and everything
else into the parameter map. -/
def buildArgsGo (kwargs : Params) :
    Params → String → String → String → String → Params →
    Except PyErr (String × String × String × String × Params)
  | [], league, season, feed, fmt, ps => .ok (league, season, feed, fmt, ps)
  | (k, v) :: t, league, season, feed, fmt, ps =>
    if k = "league" then buildArgsGo kwargs t v season feed fmt ps
    else if k = "season" then
      match pLookup kwargs "feed" with
      | none => .error (.keyError "feed")
      | some fv =>
        if fv = "players" then
          buildArgsGo kwargs t league season feed fmt (dictSet ps "season" v)
        else buildArgsGo kwargs t league v feed fmt ps
    else if k = "feed" then buildArgsGo kwargs t league season v fmt ps
    else if k = "format" then buildArgsGo kwargs t league season feed v ps
    else buildArgsGo kwargs t league season feed fmt (dictSet ps k v)

/-- Extract `(league, season, feed, format, params)` from the keyword
arguments. -/
def buildArgs (kwargs : Params) :
    Except PyErr (String × String × String × String × Params) :=
  buildArgsGo kwargs kwargs "" "" "" "" []

/-- Line 135: inject `force=false` when the caller did not supply it. -/
def addForceDefault (ps : Params) : Params :=
  if hasKey ps "force" then ps else dictSet ps "force" "false"

/-- `API_v1_0.__save_feed` lines 84–92: the payload handed to the store —
`response.json()` for json, `response.text` for xml, and the body decoded
and run through `csv.reader` line by line for csv. -/
def storeDecode (output_format : String) (resp : HttpResponse) :
    Except PyErr PyVal :=
  if output_format = "json" then
    match parseJsonStr resp.content with
    | some v => .ok v
    | none => .error .jsonDecodeError
  else if output_format = "xml" then .ok (.vstr resp.content)
  else .ok (csvContentToPy resp.content)

/-- Python `str(b'...')` — the `repr` of a bytes object, as `get_data`
computes for the xml format (modeled for bodies without quotes,
backslashes or control characters). -/
def pyBytesRepr (s : String) : String := "b'" ++ s ++ "'"

/-- `get_data` lines 159–164: the value returned to the caller on a 200 —
`json.loads(r.content)`, `str(r.content)`, or `r.content.splitlines()`
(a list of bytes lines). -/
def decode200 (output_format : String) (resp : HttpResponse) :
    Except PyErr PyVal :=
  if output_format = "json" then
    match parseJsonStr resp.content with
    | some v => .ok v
    | none => .error .jsonDecodeError
  else if output_format = "xml" then .ok (.vstr (pyBytesRepr resp.content))
  else .ok (.vlist (toPyList
      ((splitlinesL resp.content.data).map
        (fun l => PyVal.vbytes (String.mk l)))))

/-- `API_v1_0.__save_feed`: decode the response for storage, then store it
(the data-store attribute is known present at this point). -/
def save_feed (store : FileStoreState) (fs : FS)
    (league season feed output_format : String) (params : Params)
    (resp : HttpResponse) : Except PyErr FS :=
  match storeDecode output_format resp with
  | .error e => .error e
  | .ok payload =>
    match FileStore_store store fs payload league season feed output_format
        params with
    | .error e => .error e
    | .ok pr => .ok pr.2

/-- `get_data` lines 155–178: interpret the HTTP status.  On 200 the
data-store attribute is read (line 156) *before* anything else — an
`AttributeError` when it was never assigned; then the feed is saved and
the body decoded for return.  On 304 the attribute is read without any
`None` check (line 170); a missing store entry leaves the local `data`
unassigned, so `return data` raises `UnboundLocalError`.  Any other
status raises `Warning`. -/
def respCase (ds : Option FileStoreState) (fs : FS)
    (league season feed output_format : String) (params : Params)
    (resp : HttpResponse) : Except PyErr (PyVal × FS) :=
  if resp.status = 200 then
    match ds with
    | none => .error (.attributeError "data_store")
    | some store =>
      match save_feed store fs league season feed output_format params resp with
      | .error e => .error e
      | .ok fs2 =>
        match decode200 output_format resp with
        | .error e => .error e
        | .ok v => .ok (v, fs2)
  else if resp.status = 304 then
    match ds with
    | none => .error (.attributeError "data_store")
    | some store =>
      match FileStore_exists store fs league season feed output_format params with
      | .error e => .error e
      | .ok true =>
        match FileStore_load store fs league season feed output_format params with
        | .error e => .error e
        | .ok v => .ok (v, fs)
      | .ok false => .error (.unboundLocalError "data")
  else .error (.warning resp.status)

/-- `API_v1_0.get_data`, as a function of the client state, the
filesystem, the keyword arguments and the transport's response; the `Bool`
records whether the HTTP GET of line 153 was issued.  Line 108 reads
`self.auth`, raising `AttributeError` when no credentials were ever set
(the `AssertionError` branch is unreachable: an assigned `auth` is always
a non-empty tuple, hence truthy). -/
def get_data (st : ClientState) (fs : FS) (kwargs : Params)
    (resp : HttpResponse) : Except PyErr (PyVal × FS) × Bool :=
  match st.auth with
  | none => (.error (.attributeError "auth"), false)
  | some _ =>
    match buildArgs kwargs with
    | .error e => (.error e, false)
    | .ok (league, season, feed, output_format, params0) =>
      let params := addForceDefault params0
      if listElem st.valid_feeds feed = false then
        (.error (.valueError (unknownFeedMsg feed st.valid_feeds)), false)
      else if verify_format output_format = false then
        (.error (.valueError ("Unsupported format '" ++ output_format ++ "'.")),
         false)
      else
        let _url := determine_url st.base_url league season feed output_format
        (respCase st.dataStoreAttr fs league season feed output_format params
          resp, true)

/-! ### Helper lemmas for the claim theorems -/

/-- Naive prefix test, for reasoning about error-message contents. -/
def listStartsWith : List Char → List Char → Bool
  | [], _ => true
  | _ :: _, [] => false
  | p :: ps, c :: cs => p = c && listStartsWith ps cs

/-- Substring occurrence test (used to state that an error message does
not mention a given word). -/
def containsSub (pat : List Char) : List Char → Bool
  | [] => pat.isEmpty
  | c :: t => listStartsWith pat (c :: t) || containsSub pat t

theorem pLookup_dictSet_self (m : Params) (k v : String) :
    pLookup (dictSet m k v) k = some v := by
  induction m with
  | nil => simp [dictSet, pLookup]
  | cons h t ih =>
    obtain ⟨k0, v0⟩ := h
    by_cases hk : k0 = k
    · subst hk
      simp [dictSet, pLookup]
    · simp [dictSet, pLookup, hk, ih]

theorem string_data_ne_nil (s : String) (h : s ≠ "") : s.data ≠ [] := by
  intro hd
  apply h
  cases s with
  | mk d =>
    simp only at hd
    subst hd
    rfl

theorem splitlinesAux_ne_nil_of_acc (f : Nat) :
    ∀ (cs cur : List Char), cur ≠ [] → splitlinesAux f cs cur ≠ [] := by
  induction f with
  | zero =>
    intro cs cur hcur
    cases cs with
    | nil =>
      simp only [splitlinesAux]
      rw [if_neg (by simpa [List.isEmpty_iff] using hcur)]
      simp
    | cons c t =>
      simp only [splitlinesAux]
      rw [if_neg (by simpa [List.isEmpty_iff] using hcur)]
      simp
  | succ f ih =>
    intro cs cur hcur
    cases cs with
    | nil =>
      simp only [splitlinesAux]
      rw [if_neg (by simpa [List.isEmpty_iff] using hcur)]
      simp
    | cons c t =>
      simp only [splitlinesAux]
      by_cases h1 : c = '\n'
      · simp [h1]
      · by_cases h2 : c = '\r'
        · subst h2
          rw [if_neg h1, if_pos rfl]
          cases t with
          | nil => simp
          | cons c2 t2 =>
            by_cases h3 : c2 = '\n' <;> simp [h3]
        · rw [if_neg h1, if_neg h2]
          exact ih t (c :: cur) (by simp)

theorem splitlinesL_ne_nil (cs : List Char) (h : cs ≠ []) :
    splitlinesL cs ≠ [] := by
  cases cs with
  | nil => exact absurd rfl h
  | cons c t =>
    unfold splitlinesL
    simp only [List.length_cons, splitlinesAux]
    by_cases h1 : c = '\n'
    · simp [h1]
    · by_cases h2 : c = '\r'
      · subst h2
        rw [if_neg h1, if_pos rfl]
        cases t with
        | nil => simp
        | cons c2 t2 =>
          by_cases h3 : c2 = '\n' <;> simp [h3]
      · rw [if_neg h1, if_neg h2]
        exact splitlinesAux_ne_nil_of_acc t.length t [c] (by simp)

/-! ### The claim theorems -/

/-- C1: the claim says that on a 200 response `get_data` returns the body
decoded per format (storing it first when a backend is configured), and
that a client with no backend still returns the fresh data.  On the code,
`__init__` never assigns `self.data_store` from its parameter — the bare
class annotation creates no attribute and only the legacy
`store_type == "file"` branch assigns one — so for a client constructed
with the default arguments (no backend), the `is not None` check of line
156 itself raises `AttributeError` on a 200 and nothing is returned.  This
theorem evaluates the embedded `get_data` at that failing input: an
authenticated default-constructed client, a valid `player_gamelogs`
request, and a simulated 200 carrying a JSON body. -/
theorem C1_get_data_200_attribute_error :
    get_data
      (set_auth_credentials (API_v1_0_init false none none none "UA") "user" "pass")
      []
      [("league", "nba"), ("season", "2016-2017-regular"),
       ("feed", "player_gamelogs"), ("format", "json"),
       ("player", "stephen-curry")]
      { status := 200, content := "\x7b\"gamelogs\": []\x7d" }
    = (.error (.attributeError "data_store"), true) := rfl

/-- C2: the claim says a 304 with no stored entry (or no backend) does not
raise and yields an explicit no-data result.  On the code, when `exists`
is false the local `data` is never assigned and `return data` (line 178)
raises `UnboundLocalError`.  This theorem evaluates the embedded
`get_data` at that failing input: an authenticated legacy
(`store_type="file"`) client, a valid request, a simulated 304, and an
empty file store. -/
theorem C2_get_data_304_unbound_local :
    get_data
      (set_auth_credentials (API_v1_0_init false none (some "file") none "UA")
        "user" "pass")
      []
      [("league", "nba"), ("season", "2016-2017-regular"),
       ("feed", "player_gamelogs"), ("format", "json"),
       ("player", "stephen-curry")]
      { status := 304, content := "" }
    = (.error (.unboundLocalError "data"), true) := rfl

/-- C3 counterexample: the claim says the game-id and for-date suffixes
are mutually exclusive with game id taking precedence, which at
`params = [gameid ↦ 20170101-BOS-CLE, fordate ↦ 20170101]` would produce
`game_boxscore-nba-2017-20170101-BOS-CLE.json`; the code's two
independent `if` statements append BOTH suffixes. -/
theorem C3_both_suffixes_counterexample :
    resolve_filename "nba" "2017" "game_boxscore" "json"
        [("gameid", "20170101-BOS-CLE"), ("fordate", "20170101")]
      = .ok "game_boxscore-nba-2017-20170101-BOS-CLE-20170101.json" ∧
    ("game_boxscore-nba-2017-20170101-BOS-CLE-20170101.json" : String)
      ≠ "game_boxscore-nba-2017-20170101-BOS-CLE.json" :=
  ⟨rfl, by decide⟩

/-- C3 (amended): `resolve_filename` starts from
`feed-lowercased league-season`; a `gameid` parameter appends its value;
then — independently, not mutually exclusively — the date suffix is
appended (from `params["date"]` under a `"data"` key, else from a
`fordate` key); finally `.{format}`.  When both a game id and a for-date
are present both suffixes appear, game id first.  The concrete scenario
from the spec resolves as stated. -/
theorem C3_resolve_filename_amended :
    (∀ league season feed fmt params g d,
      pLookup params "gameid" = some g →
      hasKey params "data" = false →
      pLookup params "fordate" = some d →
      resolve_filename league season feed fmt params
        = .ok (feed ++ "-" ++ strToLower league ++ "-" ++ season ++ "-" ++ g
            ++ "-" ++ d ++ "." ++ fmt)) ∧
    resolve_filename "nba" "2016-2017-regular" "player_gamelogs" "json"
        [("player", "stephen-curry")]
      = .ok "player_gamelogs-nba-2016-2017-regular.json" := by
  constructor
  · intro league season feed fmt params g d hg hdata hford
    simp only [resolve_filename, hg, hford, hdata, Bool.false_eq_true, if_false]
  · rfl

/-- Witness for the amended C3 at a concrete parameter map carrying both
a game id and a for-date. -/
theorem C3_resolve_filename_amended_witness :
    resolve_filename "nba" "2017" "scoreboard" "json"
        [("gameid", "g1"), ("fordate", "d1")]
      = .ok ("scoreboard" ++ "-" ++ strToLower "nba" ++ "-" ++ "2017" ++ "-"
          ++ "g1" ++ "-" ++ "d1" ++ "." ++ "json") :=
  C3_resolve_filename_amended.1 "nba" "2017" "scoreboard" "json"
    [("gameid", "g1"), ("fordate", "d1")] "g1" "d1" rfl rfl rfl

/-- C4: the claim (and the spec) say the resolver has no error conditions
and ignores unknown keys.  The code's date branch checks for the key
`"data"` but reads `params["date"]`, so a map containing `data` without
`date` raises `KeyError` — evaluated here on the embedding. -/
theorem C4_resolve_filename_keyerror :
    resolve_filename "nba" "2017" "scoreboard" "json" [("data", "x")]
      = .error (.keyError "date") := rfl

/-- C5 counterexample: the claim says the validation error for an
unsupported format enumerates the supported set.  The code's message is
just `Unsupported format '<fmt>'.` — evaluated here on a concrete call, the
message mentions none of the three supported format names. -/
theorem C5_format_error_no_enumeration_counterexample :
    get_data
      (set_auth_credentials (API_v1_0_init false none none none "UA") "u" "p")
      []
      [("league", "nba"), ("season", "s"), ("feed", "scoreboard"),
       ("format", "yaml")]
      { status := 200, content := "" }
      = (.error (.valueError "Unsupported format 'yaml'."), false) ∧
    containsSub "json".data "Unsupported format 'yaml'.".data = false ∧
    containsSub "xml".data "Unsupported format 'yaml'.".data = false ∧
    containsSub "csv".data "Unsupported format 'yaml'.".data = false :=
  ⟨rfl, rfl, rfl, rfl⟩

/-- C5 (amended): an unknown feed fails fast with a `ValueError` whose
message enumerates the known feeds, and a feed that is known but paired
with an unsupported format fails fast with a `ValueError` naming only the
offending format (no enumeration of the supported set); in both cases no
HTTP request is issued (the returned flag is `false`). -/
theorem C5_validation_fails_fast :
    (∀ (st : ClientState) (fs : FS) (kwargs : Params) (resp : HttpResponse)
        (a : String × String) (league season feed fmt : String) (params : Params),
      st.auth = some a →
      buildArgs kwargs = .ok (league, season, feed, fmt, params) →
      listElem st.valid_feeds feed = false →
      get_data st fs kwargs resp
        = (.error (.valueError (unknownFeedMsg feed st.valid_feeds)), false)) ∧
    (∀ (st : ClientState) (fs : FS) (kwargs : Params) (resp : HttpResponse)
        (a : String × String) (league season feed fmt : String) (params : Params),
      st.auth = some a →
      buildArgs kwargs = .ok (league, season, feed, fmt, params) →
      listElem st.valid_feeds feed = true →
      verify_format fmt = false →
      get_data st fs kwargs resp
        = (.error (.valueError ("Unsupported format '" ++ fmt ++ "'.")), false)) := by
  constructor
  · intro st fs kwargs resp a league season feed fmt params hauth hargs hfeed
    simp only [get_data, hauth, hargs, hfeed]
    simp
  · intro st fs kwargs resp a league season feed fmt params hauth hargs hfeed hfmt
    simp only [get_data, hauth, hargs, hfeed, hfmt]
    simp

/-- Witness for the amended C5: an unknown feed on a concrete client
yields the enumerating `ValueError` with no HTTP call. -/
theorem C5_validation_fails_fast_witness :
    get_data
      (set_auth_credentials (API_v1_0_init false none none none "UA") "u" "p")
      [] [("feed", "bogus"), ("format", "json")]
      { status := 200, content := "" }
      = (.error (.valueError (unknownFeedMsg "bogus" valid_feeds_v1_0)), false) :=
  C5_validation_fails_fast.1
    (set_auth_credentials (API_v1_0_init false none none none "UA") "u" "p")
    [] [("feed", "bogus"), ("format", "json")] { status := 200, content := "" }
    ("u", "p") "" "" "bogus" "json" [] rfl rfl rfl

/-- C7: a data request on a client whose credentials were never set fails
before the URL is built or any HTTP request is issued: line 108 reads
`self.auth`, which was never assigned, so the interpreter raises
`AttributeError` over the missing credentials (the explicit
`AssertionError` guard is unreachable because an assigned pair is always
truthy); the HTTP-issued flag is `false`. -/
theorem C7_unauthenticated_fails_fast (st : ClientState) (fs : FS)
    (kwargs : Params) (resp : HttpResponse) (h : st.auth = none) :
    get_data st fs kwargs resp = (.error (.attributeError "auth"), false) := by
  simp only [get_data, h]

/-- Witness for C7 at a freshly constructed (never authenticated) client. -/
theorem C7_unauthenticated_fails_fast_witness :
    get_data (API_v1_0_init false none (some "file") none "UA") []
      [("feed", "scoreboard"), ("format", "json")]
      { status := 200, content := "" }
      = (.error (.attributeError "auth"), false) :=
  C7_unauthenticated_fails_fast (API_v1_0_init false none (some "file") none "UA")
    [] [("feed", "scoreboard"), ("format", "json")]
    { status := 200, content := "" } rfl

/-- C6: the codec round-trips for the structured and raw-text formats —
for every valid JSON payload and for every text, `_load_data` applied to
the `_write_data` output returns the payload — while for the tabular
format the round-trip fails for multi-field rows, because `_write_data`
writes each row as one field (`writerow([row])`) while `_load_data`
splits each line into fields: the two-field row `["a", "b"]` comes back as
the single-field row `["['a', 'b']"]`. -/
theorem C6_codec_round_trip :
    (∀ v : PyVal, validJson v = true →
      Except.bind (write_data "json" v) (load_data "json") = .ok v) ∧
    (∀ s : String,
      Except.bind (write_data "xml" (.vstr s)) (load_data "xml")
        = .ok (.vstr s)) ∧
    (Except.bind
        (write_data "csv"
          (.vlist (.lcons
            (.vlist (.lcons (.vstr "a") (.lcons (.vstr "b") .lnil))) .lnil)))
        (load_data "csv")
      = .ok (.vlist (.lcons (.vlist (.lcons (.vstr "['a', 'b']") .lnil)) .lnil)) ∧
     PyVal.vlist (.lcons (.vlist (.lcons (.vstr "['a', 'b']") .lnil)) .lnil)
       ≠ .vlist (.lcons
           (.vlist (.lcons (.vstr "a") (.lcons (.vstr "b") .lnil))) .lnil)) := by
  refine ⟨?_, fun s => rfl, rfl, by decide⟩
  intro v hv
  have hser := serializable_of_valid (sizeV v) v le_rfl hv
  unfold write_data
  rw [if_pos rfl, if_pos hser]
  show load_data "json" (String.mk (printJsonV v)) = .ok v
  unfold load_data
  rw [if_pos rfl, parseJsonStr_printJsonV v hv]

/-- Witness for C6 at a concrete valid payload. -/
theorem C6_codec_round_trip_witness :
    validJson (.vdict (.dcons "gamelogs"
        (.vlist (.lcons (.vint 1) (.lcons (.vstr "x") .lnil))) .dnil)) = true ∧
    Except.bind
        (write_data "json" (.vdict (.dcons "gamelogs"
          (.vlist (.lcons (.vint 1) (.lcons (.vstr "x") .lnil))) .dnil)))
        (load_data "json")
      = .ok (.vdict (.dcons "gamelogs"
          (.vlist (.lcons (.vint 1) (.lcons (.vstr "x") .lnil))) .dnil)) :=
  ⟨rfl, C6_codec_round_trip.1
    (.vdict (.dcons "gamelogs"
      (.vlist (.lcons (.vint 1) (.lcons (.vstr "x") .lnil))) .dnil)) rfl⟩

/-- C9: `set_auth_credentials` may be called any number of times; after a
call on any prior state the stored pair is the arguments of that call and
the Authorization header is `Basic ` followed by the base64 of
`username:password` from that same call — `dictSet` overwrites the
previous binding in place, so the header never reflects stale
credentials (instantiate `st` with the state left by any earlier call). -/
theorem C9_set_auth_credentials_consistent (st : ClientState) (u p : String) :
    (set_auth_credentials st u p).auth = some (u, p) ∧
    pLookup (set_auth_credentials st u p).headers "Authorization"
      = some ("Basic " ++ b64encode (utf8Bytes (u ++ ":" ++ p))) :=
  ⟨rfl, pLookup_dictSet_self st.headers "Authorization" _⟩

/-- C10: constructing a `FileStore` with `directory=None` falls back to
the default directory `results`: the resulting state is literally the one
an explicit `"results"` produces, so every `exists`/`load`/`store` call
resolves its paths under `results` exactly as if that directory had been
passed. -/
theorem C10_filestore_none_defaults_to_results :
    FileStore_init none = FileStore_init (some "results") ∧
    (FileStore_init none).dirPath = DEFAULT_FILE_STORE_DIRECTORY ∧
    (∀ fs league season feed fmt params,
      FileStore_exists (FileStore_init none) fs league season feed fmt params
        = FileStore_exists (FileStore_init (some "results")) fs league season
            feed fmt params) ∧
    (∀ fs league season feed fmt params,
      FileStore_load (FileStore_init none) fs league season feed fmt params
        = FileStore_load (FileStore_init (some "results")) fs league season
            feed fmt params) ∧
    (∀ fs data league season feed fmt params,
      FileStore_store (FileStore_init none) fs data league season feed fmt params
        = FileStore_store (FileStore_init (some "results")) fs data league
            season feed fmt params) :=
  ⟨rfl, rfl, fun _ _ _ _ _ _ => rfl, fun _ _ _ _ _ _ => rfl,
   fun _ _ _ _ _ _ _ => rfl⟩

/-- C8 counterexample: the claim's inequality, read over every response,
fails at the empty body — `b"".splitlines()` and `list(csv.reader([]))`
are both the empty list, so the returned and stored payloads coincide. -/
theorem C8_csv_empty_body_counterexample :
    decode200 "csv" { status := 200, content := "" }
      = storeDecode "csv" { status := 200, content := "" } := rfl

/-- C8 (amended): for every 200 response with a NON-EMPTY body, the value
`get_data` returns for the tabular format (the body split into bytes
lines) differs from the payload `__save_feed` stores (the body parsed by
`csv.reader` into rows of fields), and a later 304 answered from the
store — the stored payload written by `_write_data` and read back by
`_load_data` — likewise returns a differently-shaped value than the
original 200 call; the two coincide only for the empty body. -/
theorem C8_csv_return_store_mismatch (body : String) (h : body ≠ "") :
    decode200 "csv" { status := 200, content := body }
      ≠ storeDecode "csv" { status := 200, content := body } ∧
    (∀ stored c,
      storeDecode "csv" { status := 200, content := body } = .ok stored →
      write_data "csv" stored = .ok c →
      load_data "csv" c ≠ decode200 "csv" { status := 200, content := body }) := by
  obtain ⟨l, ls, hsplit⟩ := List.exists_cons_of_ne_nil
    (splitlinesL_ne_nil body.data (string_data_ne_nil body h))
  have hdec : decode200 "csv" { status := 200, content := body }
      = .ok (.vlist (.lcons (.vbytes (String.mk l))
          (toPyList (ls.map fun l2 => PyVal.vbytes (String.mk l2))))) := by
    unfold decode200
    rw [if_neg (by decide), if_neg (by decide), hsplit]
    rfl
  have hstore : storeDecode "csv" { status := 200, content := body }
      = .ok (.vlist (.lcons (rowToPy (csvParseLine l))
          (toPyList (ls.map fun l2 => rowToPy (csvParseLine l2))))) := by
    unfold storeDecode csvContentToPy
    rw [if_neg (by decide), if_neg (by decide), hsplit]
    rfl
  constructor
  · rw [hdec, hstore]
    simp [rowToPy]
  · intro stored c hstored hc
    rw [hstore] at hstored
    have hstored2 : stored
        = PyVal.vlist (.lcons (rowToPy (csvParseLine l))
            (toPyList (ls.map fun l2 => rowToPy (csvParseLine l2)))) := by
      cases hstored
      rfl
    subst hstored2
    unfold write_data at hc
    rw [if_neg (by decide), if_neg (by decide), if_pos rfl] at hc
    have hc2 : c = csvWriteAll (.lcons (rowToPy (csvParseLine l))
        (toPyList (ls.map fun l2 => rowToPy (csvParseLine l2)))) := by
      cases hc
      rfl
    subst hc2
    have hcne : (csvWriteAll (.lcons (rowToPy (csvParseLine l))
        (toPyList (ls.map fun l2 => rowToPy (csvParseLine l2))))).data ≠ [] := by
      show (csvWriteRow (pyStr (rowToPy (csvParseLine l))) ++ _).data ≠ []
      rw [String.data_append]
      show ((csvQuoteField _ ++ "\r\n").data ++ _) ≠ []
      rw [String.data_append]
      simp
    obtain ⟨m, ms, hsplit2⟩ := List.exists_cons_of_ne_nil
      (splitlinesL_ne_nil _ hcne)
    have hload : load_data "csv"
        (csvWriteAll (.lcons (rowToPy (csvParseLine l))
          (toPyList (ls.map fun l2 => rowToPy (csvParseLine l2)))))
        = .ok (.vlist (.lcons (rowToPy (csvParseLine m))
            (toPyList (ms.map fun l2 => rowToPy (csvParseLine l2))))) := by
      unfold load_data csvContentToPy
      rw [if_neg (by decide), if_neg (by decide), if_pos rfl, hsplit2]
      rfl
    rw [hload, hdec]
    simp [rowToPy]

/-- Witness for the amended C8 at a concrete two-row body. -/
theorem C8_csv_return_store_mismatch_witness :
    ("1,2\r\n3,4" : String) ≠ "" ∧
    decode200 "csv" { status := 200, content := "1,2\r\n3,4" }
      ≠ storeDecode "csv" { status := 200, content := "1,2\r\n3,4" } :=
  ⟨by decide, (C8_csv_return_store_mismatch "1,2\r\n3,4" (by decide)).1⟩
